import Mathlib

/-!
Shallow embedding of the Singleload isolated-execution pipeline
(src/types.rs, src/errors.rs, src/security.rs, src/container.rs,
src/executor.rs) and proofs about the frozen claims.

Rust `String` values are modelled as byte sequences (`RStr := List Nat`);
every string literal appearing in the source is ASCII, so mapping each
character to its code point gives exactly the UTF-8 bytes.  Machine
integers are modelled as `Nat`/`Int` with the relevant wrap/saturation
written out explicitly; `f32` values are modelled as rationals and the
Rust float-to-int `as` cast as truncation toward zero with saturation.
-/

namespace Singleload

/-- Byte-sequence model of a Rust `String` (UTF-8 bytes). -/
abbrev RStr := List Nat

/-- Bytes of an ASCII string literal (code point = byte for ASCII). -/
def rstr (s : String) : RStr := s.data.map Char.toNat

/-- Rust integer cast to `u32` (`as u32`): wrap modulo 2^32.  The source
casts an engine exit code `as i32` and later `as u32`; the composition of
wrapping casts equals reduction mod 2^32. -/
def rustAsU32 (i : Int) : Nat := (i % (2 ^ 32 : Int)).toNat

/-- Rust `f32 as i64` cast: truncation toward zero, saturating at the
`i64` bounds. -/
def rustAsI64 (q : ℚ) : Int :=
  let t : Int := if 0 ≤ q then ⌊q⌋ else ⌈q⌉
  max (-(2 ^ 63)) (min (2 ^ 63 - 1) t)

/-! ## src/types.rs : Language -/

/-- Model of `Language` enum (src/types.rs). -/
inductive Language where
  | Python
  | Javascript
  | Php
  | Go
  | Rust
  | Bash
  | DotNet
deriving DecidableEq

/-- Model of `Language::file_extension` (src/types.rs). -/
def Language.file_extension : Language → String
  | .Python => ".py"
  | .Javascript => ".js"
  | .Php => ".php"
  | .Go => ".go"
  | .Rust => ".rs"
  | .Bash => ".sh"
  | .DotNet => ".cs"

/-- Model of `Language::command` (src/types.rs). -/
def Language.command : Language → String
  | .Python => "python3"
  | .Javascript => "node"
  | .Php => "php"
  | .Go => "go"
  | .Rust => "rustc"
  | .Bash => "bash"
  | .DotNet => "dotnet"

/-! ## src/errors.rs : SingleloadError -/

/-- Model of `SingleloadError` (src/errors.rs).  Payloads are the formatted byte
strings carried by the Rust variants. -/
inductive SingleloadError where
  | Container (msg : RStr)
  | Timeout
  | OutputLimitExceeded
  | InvalidInput (msg : RStr)
  | SecurityViolation (msg : RStr)
  | Io (msg : RStr)
  | BaseImageNotFound
  | ScriptNotFound (msg : RStr)
  | UnsupportedLanguage (msg : RStr)
deriving DecidableEq

/-- The `thiserror`-generated `Display` strings of `SingleloadError`
(src/errors.rs), as used by `e.to_string()` in the executor. -/
def SingleloadError.message : SingleloadError → RStr
  | .Container m => rstr "Container error: " ++ m
  | .Timeout => rstr "Execution timeout exceeded"
  | .OutputLimitExceeded => rstr "Output size limit exceeded"
  | .InvalidInput m => rstr "Invalid input: " ++ m
  | .SecurityViolation m => rstr "Security violation: " ++ m
  | .Io m => rstr "IO error: " ++ m
  | .BaseImageNotFound => rstr "Base image not found. Run 'singleload install' first"
  | .ScriptNotFound m => rstr "Script file not found: " ++ m
  | .UnsupportedLanguage m => rstr "Unsupported language: " ++ m

/-! ## src/types.rs : ExecutionResult -/

/-- Model of `ExecutionResult` (src/types.rs).  `exit_code` is a `u32`,
`duration_ms` a `u64`; both are modelled as `Nat` (constructions below
only ever store values in range). -/
structure ExecutionResult where
  status : RStr
  exit_code : Nat
  stdout : RStr
  stderr : RStr
  duration_ms : Nat
  error : Option RStr
  truncated : Bool
deriving DecidableEq

/-- Model of `ExecutionResult::success` (src/types.rs). -/
def ExecutionResult.success (exit_code : Nat) (stdout stderr : RStr)
    (duration_ms : Nat) (truncated : Bool) : ExecutionResult :=
  { status := if exit_code = 0 then rstr "success" else rstr "failed"
    exit_code := exit_code
    stdout := stdout
    stderr := stderr
    duration_ms := duration_ms
    error := none
    truncated := truncated }

/-- Model of `ExecutionResult::error` (src/types.rs).  Named `errorRecord` here
because `error` is already the field projection. -/
def ExecutionResult.errorRecord (err : RStr) (duration_ms : Nat) : ExecutionResult :=
  { status := rstr "error"
    exit_code := 1
    stdout := []
    stderr := []
    duration_ms := duration_ms
    error := some err
    truncated := false }

/-! ## src/types.rs : ContainerConfig -/

/-- Model of `Mount` (src/types.rs). -/
structure Mount where
  source : String
  target : String
  read_only : Bool
deriving DecidableEq

/-- Model of `ContainerConfig` (src/types.rs).  `timeout` is kept in seconds. -/
structure ContainerConfig where
  image : String
  name : String
  memory_limit : Nat
  cpu_limit : ℚ
  timeoutSecs : Nat
  network_disabled : Bool
  read_only : Bool
  user : String
  security_opts : List String
  cap_drop : List String
  mounts : List Mount
  env : List (String × String)
deriving DecidableEq

/-- Translation of `impl Default for ContainerConfig` (src/types.rs). -/
def ContainerConfig.default : ContainerConfig :=
  { image := ""
    name := ""
    memory_limit := 512 * 1024 * 1024
    cpu_limit := 1
    timeoutSecs := 30
    network_disabled := true
    read_only := true
    user := "65532:65532"
    security_opts := ["no-new-privileges", "seccomp=unconfined"]
    cap_drop := ["ALL"]
    mounts := []
    env := [] }

/-! ## JSON model of the serde derive on `ExecutionResult` (src/types.rs) -/

/-- JSON values, restricted to the shapes `ExecutionResult`'s fields use. -/
inductive JValue where
  | str (s : RStr)
  | num (n : Nat)
  | bool (b : Bool)
deriving DecidableEq

/-- A JSON object as an ordered key/value list. -/
abbrev JObject := List (String × JValue)

/-- First value bound to key `k`. -/
def jLookup (o : JObject) (k : String) : Option JValue :=
  (o.find? (fun p => p.1 = k)).map (fun p => p.2)

/-- Serde serialization of `ExecutionResult` (src/types.rs):
`error` is skipped when `None` (`skip_serializing_if = Option::is_none`)
and `truncated` is skipped when `false`
(`skip_serializing_if = std::ops::Not::not`). -/
def serializeExecutionResult (r : ExecutionResult) : JObject :=
  [("status", .str r.status),
   ("exit_code", .num r.exit_code),
   ("stdout", .str r.stdout),
   ("stderr", .str r.stderr),
   ("duration_ms", .num r.duration_ms)]
  ++ (match r.error with
      | some e => [("error", .str e)]
      | none => [])
  ++ (if r.truncated then [("truncated", .bool r.truncated)] else [])

/-- Serde deserialization of `ExecutionResult` (src/types.rs derive):
`status/exit_code/stdout/stderr/duration_ms` are required; `error` is an
`Option` field, so a missing key yields `None`; `truncated` is a plain
`bool` field with no `#[serde(default)]`, so a missing key is an error. -/
def deserializeExecutionResult (o : JObject) : Except String ExecutionResult := do
  let status ← match jLookup o "status" with
    | some (.str s) => pure s
    | some _ => throw "invalid type: status"
    | none => throw "missing field: status"
  let exit_code ← match jLookup o "exit_code" with
    | some (.num n) => pure n
    | some _ => throw "invalid type: exit_code"
    | none => throw "missing field: exit_code"
  let stdout ← match jLookup o "stdout" with
    | some (.str s) => pure s
    | some _ => throw "invalid type: stdout"
    | none => throw "missing field: stdout"
  let stderr ← match jLookup o "stderr" with
    | some (.str s) => pure s
    | some _ => throw "invalid type: stderr"
    | none => throw "missing field: stderr"
  let duration_ms ← match jLookup o "duration_ms" with
    | some (.num n) => pure n
    | some _ => throw "invalid type: duration_ms"
    | none => throw "missing field: duration_ms"
  let error ← match jLookup o "error" with
    | some (.str s) => pure (some s)
    | some _ => throw "invalid type: error"
    | none => pure none
  let truncated ← match jLookup o "truncated" with
    | some (.bool b) => pure b
    | some _ => throw "invalid type: truncated"
    | none => throw "missing field: truncated"
  pure { status := status, exit_code := exit_code, stdout := stdout,
         stderr := stderr, duration_ms := duration_ms, error := error,
         truncated := truncated }

/-! ## src/security.rs : SecurityValidator -/

/-- A host path, as its list of name components.  A canonical absolute
path `/a/b` is `⟨["a", "b"]⟩`. -/
structure RPath where
  comps : List String
deriving DecidableEq

/-- Host filesystem abstraction for the effectful checks the validator
performs: `Path::exists`, `Path::is_file`, `fs::metadata(..).len()`
(`none` models an IO failure) and `Path::canonicalize` (`none` models an
IO failure; otherwise the symlink-resolved absolute path). -/
structure FileSystem where
  pathExists : RPath → Bool
  isFile : RPath → Bool
  metadataLen : RPath → Option Nat
  canonicalize : RPath → Option RPath
  readFile : RPath → Option (List Nat)

/-- Rust `Path::extension` on a file name: the part after the last dot,
or `none` when there is no dot or the only dot is the leading one. -/
def rustExtension (name : List Char) : Option (List Char) :=
  let rev := name.reverse
  match rev.findIdx? (fun c => c = '.') with
  | none => none
  | some i => if i + 1 = name.length then none else some (rev.take i).reverse

/-- The validator's dotted extension of a path:
`path.extension().map(|e| format!(".{}", e)).unwrap_or_default()`
(src/security.rs). -/
def dottedExtension (p : RPath) : String :=
  match p.comps.getLast? with
  | none => ""
  | some nm =>
    match rustExtension nm.data with
    | none => ""
    | some e => "." ++ String.mk e

/-- Rust `Path::components().count()` on a canonical absolute path: the root
directory counts as one component in addition to the names. -/
def rustComponentsCount (p : RPath) : Nat := p.comps.length + 1

/-- Character rendering of a canonical absolute path, as
`to_string_lossy` produces it: a `/` before each component. -/
def renderChars (p : RPath) : List Char :=
  (p.comps.map (fun s => '/' :: s.data)).flatten

/-- The `path_str.contains("..")` substring test of src/security.rs. -/
def containsDotDot (p : RPath) : Bool :=
  decide (['.', '.'] <:+: renderChars p)

/-- Model of `MAX_SCRIPT_SIZE` (src/security.rs). -/
def MAX_SCRIPT_SIZE : Nat := 10 * 1024 * 1024

/-- Model of `MAX_PATH_DEPTH` (src/security.rs). -/
def MAX_PATH_DEPTH : Nat := 10

/-- Model of `SUSPICIOUS_EXTENSIONS` (src/security.rs). -/
def SUSPICIOUS_EXTENSIONS : List String := [".so", ".dll", ".dylib", ".ko", ".sys"]

/-- The allow-list the executor passes to `SecurityValidator::new`
(src/executor.rs). -/
def allowedExtensions : List String :=
  [".py", ".js", ".php", ".go", ".rs", ".sh", ".cs"]

/-- Model of `SecurityValidator::validate_script_path` (src/security.rs), check
for check in source order: exists, is_file, extension allow-list (on the
path as given), suspicious-extension list, size, canonicalize, component
count, `".."` substring of the canonical path string.  The
`Allowed: {:?}` debug suffix of the extension message is elided (the
`HashSet` iteration order behind it is unspecified). -/
def validate_script_path (allowed : List String) (fs : FileSystem)
    (path : RPath) : Except SingleloadError Unit :=
  if !fs.pathExists path then
    .error (.ScriptNotFound (rstr "<path>"))
  else if !fs.isFile path then
    .error (.InvalidInput (rstr "Path must be a file, not a directory"))
  else
    let extension := dottedExtension path
    if !allowed.contains extension then
      .error (.InvalidInput (rstr ("File extension '" ++ extension ++ "' not allowed")))
    else if SUSPICIOUS_EXTENSIONS.contains extension then
      .error (.SecurityViolation (rstr ("Suspicious file extension detected: " ++ extension)))
    else
      match fs.metadataLen path with
      | none => .error (.Io (rstr "metadata failed"))
      | some len =>
        if len > MAX_SCRIPT_SIZE then
          .error (.InvalidInput (rstr "File size exceeds maximum allowed size"))
        else
          match fs.canonicalize path with
          | none => .error (.Io (rstr "canonicalize failed"))
          | some canonical =>
            if rustComponentsCount canonical > MAX_PATH_DEPTH then
              .error (.SecurityViolation (rstr "Path too deep"))
            else if containsDotDot canonical then
              .error (.SecurityViolation (rstr "Path traversal detected"))
            else
              .ok ()

/-- Model of `SecurityValidator::validate_script_content` (src/security.rs): the
null-byte check blocks; the suspicious-pattern scan only logs warnings
and never blocks, so it has no effect on the result. -/
def validate_script_content (content : List Nat) : Except SingleloadError Unit :=
  if content.contains 0 then
    .error (.SecurityViolation (rstr "Script contains null bytes"))
  else
    .ok ()

/-! ## src/container.rs : ContainerManager -/

/-- The `resource_limits` map set on the spec (src/container.rs):
`memory`, `cpu-shares`, `pids`. -/
structure ResourceLimits where
  memory : Nat
  cpuShares : Int
  pids : Nat
deriving DecidableEq

/-- One entry of the spec's mount list (src/container.rs). -/
structure SpecMount where
  kind : String
  source : String
  destination : String
  readonly : Bool
deriving DecidableEq

/-- The populated fields of the podman `SpecGenerator` built by
`ContainerManager::create_container` (src/container.rs).  The `remove`
field is omitted: the source sets it from a `config.debug` field that
`ContainerConfig` does not declare (a slip in the source), and no claim
depends on it.  `env` is kept as the insertion list feeding the
`HashMap`. -/
structure SpecGenerator where
  image : String
  name : String
  user : String
  userns : String
  network : String
  read_only_filesystem : Bool
  resource_limits : ResourceLimits
  security_opt : List String
  cap_drop : List String
  cap_add : Option (List String)
  env : List (String × String)
  mounts : List SpecMount
deriving DecidableEq

/-- Model of `ContainerManager::create_container` (src/container.rs), the pure
spec-building part: network is hard-coded to `"none"`, the root
filesystem read-only flag is taken from the config, cpu-shares is the
Rust cast `(config.cpu_limit * 1024.0) as i64`, pids is 100, all
capabilities are dropped and none added. -/
def create_container_spec (config : ContainerConfig) (seccompPath : String) : SpecGenerator :=
  { image := config.image
    name := config.name
    user := config.user
    userns := "host"
    network := "none"
    read_only_filesystem := config.read_only
    resource_limits :=
      { memory := config.memory_limit
        cpuShares := rustAsI64 (config.cpu_limit * 1024)
        pids := 100 }
    security_opt := ["no-new-privileges", "seccomp=" ++ seccompPath]
    cap_drop := ["ALL"]
    cap_add := none
    env := config.env
    mounts :=
      config.mounts.map (fun m =>
        { kind := "bind", source := m.source, destination := m.target,
          readonly := m.read_only })
      ++ [{ kind := "tmpfs", source := "", destination := "/tmp", readonly := false }] }

/-- Engine-side container list, for the remove operation. -/
abbrev EngineState := List String

/-- The engine's own remove endpoint: fails when the container does not
exist (as podman does for an unknown or already-removed ID). -/
def podmanRemove (st : EngineState) (id : String) : EngineState × Except String Unit :=
  if st.contains id then (st.erase id, .ok ())
  else (st, .error "no such container")

/-- Model of `ContainerManager::remove_container` (src/container.rs): an engine
failure is only logged (`warn!`); the function always returns `Ok(())`. -/
def remove_container (st : EngineState) (id : String) :
    EngineState × Except SingleloadError Unit :=
  let r := podmanRemove st id
  (r.1, .ok ())

/-! ## src/executor.rs : Executor -/

/-- The literal suffix appended to a truncated stream
(src/executor.rs `apply_output_limits`). -/
def truncSuffixBytes : RStr := rstr "... [truncated]"

/-- Model of `Executor::apply_output_limits` (src/executor.rs) on the byte
sequences of the two streams: `stream.len()` is the byte length and
`&stream[..limit]` keeps the first `limit` bytes. -/
def apply_output_limits (limit : Nat) (stdout stderr : RStr) :
    RStr × RStr × Bool :=
  let truncated := decide (stdout.length > limit) || decide (stderr.length > limit)
  let stdoutLimited :=
    if stdout.length > limit then stdout.take limit ++ truncSuffixBytes else stdout
  let stderrLimited :=
    if stderr.length > limit then stderr.take limit ++ truncSuffixBytes else stderr
  (stdoutLimited, stderrLimited, truncated)

/-- Rust byte-index slicing `&s[..n]` at the character level: returns the
characters making up the first `n` bytes, or `none` when `n` falls
strictly inside a multi-byte UTF-8 character (where the Rust slice
panics). -/
def sliceTo : List Char → Nat → Option (List Char)
  | _, 0 => some []
  | [], _ + 1 => none
  | c :: cs, n + 1 =>
    if c.utf8Size ≤ n + 1 then (sliceTo cs (n + 1 - c.utf8Size)).map (fun l => c :: l)
    else none

/-- UTF-8 byte length of a Rust string viewed as its characters. -/
def utf8Len (s : List Char) : Nat := (s.map Char.utf8Size).sum

/-- The truncation suffix as characters. -/
def truncSuffixChars : List Char := "... [truncated]".data

/-- Model of `Executor::apply_output_limits` (src/executor.rs) at the character
level, with the partiality of Rust's byte-index slicing made explicit:
`none` models the panic of `&stream[..limit]` when `limit` is not a
character boundary of an over-long stream. -/
def apply_output_limits_utf8 (limit : Nat) (stdout stderr : List Char) :
    Option (List Char × List Char × Bool) :=
  let truncated := decide (utf8Len stdout > limit) || decide (utf8Len stderr > limit)
  match (if utf8Len stdout > limit then (sliceTo stdout limit).map (fun l => l ++ truncSuffixChars)
         else some stdout) with
  | none => none
  | some so =>
    match (if utf8Len stderr > limit then (sliceTo stderr limit).map (fun l => l ++ truncSuffixChars)
           else some stderr) with
    | none => none
    | some se => some (so, se, truncated)

/-- The engine calls `Executor::run_script` makes through the
`ContainerManager`, abstracted as their outcomes. -/
structure Engine where
  createContainer : ContainerConfig → Except SingleloadError String
  startContainer : String → Except SingleloadError Unit
  waitContainer : String → Except SingleloadError Int
  getLogs : String → Except SingleloadError (RStr × RStr)

/-- Everything effectful one `run_script` call observes. -/
structure ExecEnv where
  fs : FileSystem
  engine : Engine
  tempDirNew : Except SingleloadError String
  writeScript : Except SingleloadError Unit
  containerName : String
  elapsedMs : Nat

/-- The `Executor` struct fields that shape a run (src/executor.rs). -/
structure Executor where
  baseImage : String
  timeoutSecs : Nat
  memoryLimit : Nat
  cpuLimit : ℚ
  outputLimit : Nat

/-- The `ContainerConfig` assembled in `Executor::run_script`
(src/executor.rs lines 71–110): defaults, then image/name/limits, the
read-only workspace bind mount, the base environment, the per-language
environment, and `read_only = !keep_container`. -/
def Executor.buildContainerConfig (ex : Executor) (lang : Language)
    (keepContainer : Bool) (name tempPath : String) : ContainerConfig :=
  let base :=
    { ContainerConfig.default with
        image := ex.baseImage
        name := name
        memory_limit := ex.memoryLimit
        cpu_limit := ex.cpuLimit
        timeoutSecs := ex.timeoutSecs }
  let withMount :=
    { base with
        mounts := base.mounts ++ [({ source := tempPath, target := "/workspace", read_only := true } : Mount)] }
  let baseEnv :=
    [("HOME", "/tmp"), ("USER", "nonroot"), ("PATH", "/usr/local/bin:/usr/bin:/bin")]
  let langEnv :=
    match lang with
    | .Python => [("PYTHONUNBUFFERED", "1"), ("PYTHONDONTWRITEBYTECODE", "1")]
    | .Go => [("GOCACHE", "/tmp/gocache"), ("GOPATH", "/tmp/gopath")]
    | .DotNet => [("DOTNET_CLI_HOME", "/tmp"), ("DOTNET_CLI_TELEMETRY_OPTOUT", "1")]
    | _ => []
  { withMount with
      env := withMount.env ++ baseEnv ++ langEnv
      read_only := !keepContainer }

/-- Model of `Executor::execute_in_container` (src/executor.rs): start, wait,
logs, output caps.  The final `remove_container` call cannot fail (it
always returns `Ok`), so it contributes no error path. -/
def execute_in_container (eng : Engine) (containerId : String) (outputLimit : Nat) :
    Except SingleloadError (Int × RStr × RStr × Bool) :=
  match eng.startContainer containerId with
  | .error e => .error e
  | .ok _ =>
    match eng.waitContainer containerId with
    | .error e => .error e
    | .ok exitCode =>
      match eng.getLogs containerId with
      | .error e => .error e
      | .ok logs =>
        let capped := apply_output_limits outputLimit logs.1 logs.2
        .ok (exitCode, capped.1, capped.2.1, capped.2.2)

/-- Model of `Executor::run_script` (src/executor.rs).  Validator, read, write and
create failures leave through `?` as `Err`; only failures inside
`execute_in_container` are converted into an error record.  Streams are
byte sequences and the wall clock is abstracted as `env.elapsedMs`. -/
def Executor.run_script (ex : Executor) (env : ExecEnv) (lang : Language)
    (path : RPath) (keepContainer : Bool) : Except SingleloadError ExecutionResult :=
  match validate_script_path allowedExtensions env.fs path with
  | .error e => .error e
  | .ok _ =>
    match env.fs.readFile path with
    | none => .error (.Io (rstr "read failed"))
    | some content =>
      match validate_script_content content with
      | .error e => .error e
      | .ok _ =>
        match env.tempDirNew with
        | .error e => .error e
        | .ok tempDir =>
          match env.writeScript with
          | .error e => .error e
          | .ok _ =>
            match env.engine.createContainer
                (ex.buildContainerConfig lang keepContainer env.containerName tempDir) with
            | .error e => .error e
            | .ok containerId =>
              match execute_in_container env.engine containerId ex.outputLimit with
              | .ok r =>
                .ok (ExecutionResult.success (rustAsU32 r.1) r.2.1 r.2.2.1 env.elapsedMs r.2.2.2)
              | .error e =>
                .ok (ExecutionResult.errorRecord (SingleloadError.message e) env.elapsedMs)

/-! ## Shared lemmas -/

/-- Every `Ok` result of `run_script` is either a record built by
`ExecutionResult::success` from a container exit, or a record built by
`ExecutionResult::error` from a caught error message; in both cases the
duration is the elapsed time at record assembly. -/
theorem run_script_ok_shape (ex : Executor) (env : ExecEnv) (lang : Language)
    (path : RPath) (keep : Bool) (r : ExecutionResult)
    (h : ex.run_script env lang path keep = .ok r) :
    (∃ i so se tr, r = ExecutionResult.success (rustAsU32 i) so se env.elapsedMs tr)
    ∨ (∃ e, r = ExecutionResult.errorRecord (SingleloadError.message e) env.elapsedMs) := by
  unfold Executor.run_script at h
  repeat' split at h
  all_goals first
    | (cases h; exact Or.inl ⟨_, _, _, _, rfl⟩)
    | (cases h; exact Or.inr ⟨_, rfl⟩)
    | cases h

/-- A component that is literally `".."` makes the rendered canonical
path string contain the substring `".."`. -/
theorem containsDotDot_of_mem (p : RPath) (h : ".." ∈ p.comps) :
    containsDotDot p = true := by
  refine decide_eq_true ?_
  have h1 : ('/' :: "..".data) ∈ p.comps.map (fun s => '/' :: s.data) :=
    List.mem_map_of_mem _ h
  have h2 : ('/' :: "..".data) <:+: renderChars p := List.infix_of_mem_flatten h1
  have h3 : "..".data <:+ ('/' :: "..".data) := List.suffix_cons _ _
  exact h3.isInfix.trans h2

/-- The execution records the program can build: every record is
produced by one of the two `ExecutionResult` constructors
(src/types.rs). -/
inductive Built : ExecutionResult → Prop
  | success (ec : Nat) (so se : RStr) (d : Nat) (tr : Bool) :
      Built (ExecutionResult.success ec so se d tr)
  | errorRecord (msg : RStr) (d : Nat) :
      Built (ExecutionResult.errorRecord msg d)

/-! ## Concrete fixtures used by counterexamples and witnesses -/

/-- Engine stub whose calls all succeed. -/
def engOk : Engine :=
  { createContainer := fun _ => .ok "cid"
    startContainer := fun _ => .ok ()
    waitContainer := fun _ => .ok 0
    getLogs := fun _ => .ok ([], []) }

/-- Executor fixture with the default CLI limits. -/
def exFix : Executor :=
  { baseImage := "localhost/singleload-runner:latest"
    timeoutSecs := 30
    memoryLimit := 512 * 1024 * 1024
    cpuLimit := 1
    outputLimit := 1024 * 1024 }

/-- A path whose extension is `.txt`, not in the allow-list. -/
def pC1 : RPath := ⟨["tmp", "foo.txt"]⟩

/-- Filesystem on which `pC1` exists as a small regular file. -/
def fsC1 : FileSystem :=
  { pathExists := fun _ => true
    isFile := fun _ => true
    metadataLen := fun _ => some 4
    canonicalize := fun p => some p
    readFile := fun _ => some [104, 105] }

/-- Environment for the C1 counterexample. -/
def envC1 : ExecEnv :=
  { fs := fsC1
    engine := engOk
    tempDirNew := .ok "/tmp/w1"
    writeScript := .ok ()
    containerName := "singleload-c1"
    elapsedMs := 7 }

/-- An allowed `.py` path whose file content contains a null byte. -/
def pC1b : RPath := ⟨["tmp", "nul.py"]⟩

/-- Filesystem on which `pC1b` validates but reads as `[0]`. -/
def fsC1b : FileSystem :=
  { pathExists := fun _ => true
    isFile := fun _ => true
    metadataLen := fun _ => some 1
    canonicalize := fun p => some p
    readFile := fun _ => some [0] }

/-- Environment for the C1 witness, null-byte branch. -/
def envC1b : ExecEnv :=
  { fs := fsC1b
    engine := engOk
    tempDirNew := .ok "/tmp/w1b"
    writeScript := .ok ()
    containerName := "singleload-c1b"
    elapsedMs := 8 }

/-- Record with `truncated = false` for the serde round-trip check. -/
def recC4 : ExecutionResult := ExecutionResult.errorRecord (rstr "boom") 5

/-- Input path of the C5 counterexample: a symlink named with an allowed
`.py` extension. -/
def pC5link : RPath := ⟨["tmp", "link.py"]⟩

/-- Canonical target of `pC5link`: a `.txt` file, outside the
allow-list. -/
def pC5target : RPath := ⟨["tmp", "target.txt"]⟩

/-- Filesystem where `pC5link` canonicalizes to `pC5target`. -/
def fsC5 : FileSystem :=
  { pathExists := fun _ => true
    isFile := fun _ => true
    metadataLen := fun _ => some 4
    canonicalize := fun p => if p = pC5link then some pC5target else some p
    readFile := fun _ => some [104] }

/-- A `.txt` path on a filesystem where canonicalization would fail. -/
def pC5bad : RPath := ⟨["tmp", "bad.txt"]⟩

/-- Filesystem whose `canonicalize` always fails with an IO error. -/
def fsC5bad : FileSystem :=
  { pathExists := fun _ => true
    isFile := fun _ => true
    metadataLen := fun _ => some 4
    canonicalize := fun _ => none
    readFile := fun _ => some [104] }

/-- Config with `cpu_limit = 2.9`, inside the CLI range 0.1–4.0. -/
def cfgC6 : ContainerConfig := { ContainerConfig.default with cpu_limit := 29 / 10 }

/-- A valid `.py` path for the C10 witness. -/
def pC10 : RPath := ⟨["tmp", "ok.py"]⟩

/-- Filesystem on which `pC10` validates and reads cleanly. -/
def fsC10 : FileSystem :=
  { pathExists := fun _ => true
    isFile := fun _ => true
    metadataLen := fun _ => some 2
    canonicalize := fun p => some p
    readFile := fun _ => some [104, 105] }

/-- Engine whose `wait` call times out after producing output. -/
def engC10 : Engine :=
  { createContainer := fun _ => .ok "cid10"
    startContainer := fun _ => .ok ()
    waitContainer := fun _ => .error .Timeout
    getLogs := fun _ => .ok (rstr "partial output", []) }

/-- Environment for the C10 witness: the run reaches `wait`, which
times out. -/
def envC10 : ExecEnv :=
  { fs := fsC10
    engine := engC10
    tempDirNew := .ok "/tmp/w10"
    writeScript := .ok ()
    containerName := "singleload-c10"
    elapsedMs := 42 }

/-! ## C1 -/

/-- C1, as stated, is false: a request whose path validation fails (an
extension outside the allow-list) makes `run_script` return the
validator's error itself (`Err`, via the `?` operator at
src/executor.rs:57), not an `Ok` record with status `"error"`. -/
theorem validator_error_propagates_counterexample :
    validate_script_path allowedExtensions fsC1 pC1
      = .error (.InvalidInput (rstr "File extension '.txt' not allowed")) ∧
    exFix.run_script envC1 .Python pC1 false
      = .error (.InvalidInput (rstr "File extension '.txt' not allowed")) :=
  ⟨rfl, rfl⟩

/-- C1 (amended): path- and content-validation failures are propagated
to the caller as the categorized error itself; `run_script` returns
`Err e`, never an error record, for them. -/
theorem validator_errors_propagate (ex : Executor) (env : ExecEnv) (lang : Language)
    (path : RPath) (keep : Bool) :
    (∀ e, validate_script_path allowedExtensions env.fs path = .error e →
      ex.run_script env lang path keep = .error e) ∧
    (∀ c e, validate_script_path allowedExtensions env.fs path = .ok () →
      env.fs.readFile path = some c →
      validate_script_content c = .error e →
      ex.run_script env lang path keep = .error e) := by
  constructor
  · intro e he
    unfold Executor.run_script
    simp only [he]
  · intro c e h1 h2 h3
    unfold Executor.run_script
    simp only [h1, h2, h3]

/-- Witness for C1 (amended): both validator branches discharged on
concrete runs. -/
theorem validator_errors_propagate_witness :
    exFix.run_script envC1 .Python pC1 false
      = .error (.InvalidInput (rstr "File extension '.txt' not allowed")) ∧
    exFix.run_script envC1b .Python pC1b false
      = .error (.SecurityViolation (rstr "Script contains null bytes")) :=
  ⟨(validator_errors_propagate exFix envC1 .Python pC1 false).1 _ rfl,
   (validator_errors_propagate exFix envC1b .Python pC1b false).2 [0]
     (.SecurityViolation (rstr "Script contains null bytes")) rfl rfl rfl⟩

/-! ## C2 -/

/-- C2: a stream whose byte length is within the cap passes through
unchanged; an over-long stream keeps exactly its first `limit` bytes
followed by the literal suffix `"... [truncated]"`, making its length
exactly `limit + 15`; the record flag is set iff at least one stream
exceeded the cap (src/executor.rs `apply_output_limits`). -/
theorem apply_output_limits_correct (limit : Nat) (stdout stderr : RStr) :
    (stdout.length ≤ limit → (apply_output_limits limit stdout stderr).1 = stdout) ∧
    (limit < stdout.length →
      (apply_output_limits limit stdout stderr).1 = stdout.take limit ++ truncSuffixBytes ∧
      (apply_output_limits limit stdout stderr).1.length = limit + truncSuffixBytes.length) ∧
    (stderr.length ≤ limit → (apply_output_limits limit stdout stderr).2.1 = stderr) ∧
    (limit < stderr.length →
      (apply_output_limits limit stdout stderr).2.1 = stderr.take limit ++ truncSuffixBytes ∧
      (apply_output_limits limit stdout stderr).2.1.length = limit + truncSuffixBytes.length) ∧
    ((apply_output_limits limit stdout stderr).2.2 = true ↔
      limit < stdout.length ∨ limit < stderr.length) ∧
    truncSuffixBytes = rstr "... [truncated]" := by
  refine ⟨?_, ?_, ?_, ?_, ?_, rfl⟩
  · intro hle
    simp [apply_output_limits, Nat.not_lt.mpr hle]
  · intro hlt
    constructor
    · simp [apply_output_limits, hlt]
    · simp [apply_output_limits, hlt, List.length_take]
      omega
  · intro hle
    simp [apply_output_limits, Nat.not_lt.mpr hle]
  · intro hlt
    constructor
    · simp [apply_output_limits, hlt]
    · simp [apply_output_limits, hlt, List.length_take]
      omega
  · simp [apply_output_limits]

/-- Witness for C2 at cap 2 with a 3-byte stdout and empty stderr. -/
theorem apply_output_limits_correct_witness :
    (apply_output_limits 2 [1, 2, 3] []).1 = [1, 2, 3].take 2 ++ truncSuffixBytes ∧
    (apply_output_limits 2 [1, 2, 3] []).2.1 = [] ∧
    (apply_output_limits 2 [1, 2, 3] []).2.2 = true := by
  have h := apply_output_limits_correct 2 [1, 2, 3] []
  exact ⟨(h.2.1 (by decide)).1, h.2.2.1 (by decide),
    h.2.2.2.2.1.mpr (Or.inl (by decide))⟩

/-! ## C3 -/

/-- C3: every spec built for a non-debug request has network `"none"`,
a read-only root filesystem, `cap_drop = ["ALL"]`, no added capability
and user `65532:65532`; and no spec at all — debug included — combines a
writable root filesystem with enabled networking, since the network is
hard-coded to `"none"` (src/container.rs `create_container`,
src/executor.rs `run_script`). -/
theorem container_spec_isolation :
    (∀ (ex : Executor) (lang : Language) (name tempPath seccompPath : String),
      (create_container_spec (ex.buildContainerConfig lang false name tempPath) seccompPath).network = "none" ∧
      (create_container_spec (ex.buildContainerConfig lang false name tempPath) seccompPath).read_only_filesystem = true ∧
      (create_container_spec (ex.buildContainerConfig lang false name tempPath) seccompPath).cap_drop = ["ALL"] ∧
      (create_container_spec (ex.buildContainerConfig lang false name tempPath) seccompPath).cap_add = none ∧
      (create_container_spec (ex.buildContainerConfig lang false name tempPath) seccompPath).user = "65532:65532") ∧
    (∀ (config : ContainerConfig) (seccompPath : String),
      ¬((create_container_spec config seccompPath).read_only_filesystem = false ∧
        (create_container_spec config seccompPath).network ≠ "none")) := by
  constructor
  · intro ex lang name tempPath seccompPath
    exact ⟨rfl, rfl, rfl, rfl, rfl⟩
  · rintro config seccompPath ⟨-, hn⟩
    exact hn rfl

/-- Witness for C3 on a concrete non-debug Python request. -/
theorem container_spec_isolation_witness :
    (create_container_spec (exFix.buildContainerConfig .Python false "n" "/tmp/w") "/tmp/s.json").network = "none" ∧
    (create_container_spec (exFix.buildContainerConfig .Python false "n" "/tmp/w") "/tmp/s.json").user = "65532:65532" :=
  ⟨(container_spec_isolation.1 exFix .Python "n" "/tmp/w" "/tmp/s.json").1,
   (container_spec_isolation.1 exFix .Python "n" "/tmp/w" "/tmp/s.json").2.2.2.2⟩

/-! ## C4 -/

/-- C4 fails on the code: for a record with `truncated = false` the
serializer omits the `truncated` key, and deserialization then rejects
the JSON with a missing-field error instead of returning the record —
the `bool` field has `skip_serializing_if` but no `#[serde(default)]`
(src/types.rs). -/
theorem serde_roundtrip_fails_on_default_truncated :
    recC4.truncated = false ∧
    jLookup (serializeExecutionResult recC4) "truncated" = none ∧
    deserializeExecutionResult (serializeExecutionResult recC4)
      = .error "missing field: truncated" :=
  ⟨rfl, rfl, rfl⟩

/-! ## C5 -/

/-- C5, as stated, is false: the extension allow-list check runs on the
input path *before* canonicalization and no allow-list check is applied
to the canonical path.  A symlink named `link.py` whose canonical target
is `target.txt` is accepted although the final path's extension is
outside the allow-list; and a `.txt` input is rejected with the
extension error even on a filesystem where canonicalization would fail,
showing the extension check runs first (src/security.rs:124–175). -/
theorem extension_checked_before_canonicalization_counterexample :
    validate_script_path allowedExtensions fsC5 pC5link = .ok () ∧
    fsC5.canonicalize pC5link = some pC5target ∧
    allowedExtensions.contains (dottedExtension pC5target) = false ∧
    validate_script_path allowedExtensions fsC5bad pC5bad
      = .error (.InvalidInput (rstr "File extension '.txt' not allowed")) ∧
    fsC5bad.canonicalize pC5bad = none :=
  ⟨rfl, rfl, rfl, rfl, rfl⟩

/-- C5 (amended): the allow-list check is applied to the input path as
given, before canonicalization; every accepted path additionally has a
canonical form whose rendered string contains no `".."` substring (in
particular no literal `".."` component) and whose component count — root
included — is at most 10. -/
theorem validate_script_path_sound (fs : FileSystem) (path : RPath)
    (h : validate_script_path allowedExtensions fs path = .ok ()) :
    allowedExtensions.contains (dottedExtension path) = true ∧
    ∃ c, fs.canonicalize path = some c ∧
      rustComponentsCount c ≤ MAX_PATH_DEPTH ∧
      containsDotDot c = false ∧
      ".." ∉ c.comps := by
  unfold validate_script_path at h
  by_cases h1 : fs.pathExists path = true <;> simp [h1] at h
  by_cases h2 : fs.isFile path = true <;> simp [h2] at h
  by_cases h3 : dottedExtension path ∈ allowedExtensions <;> simp [h3] at h
  by_cases h4 : dottedExtension path ∈ SUSPICIOUS_EXTENSIONS <;> simp [h4] at h
  rcases h5 : fs.metadataLen path with _ | len <;> simp [h5] at h
  by_cases h6 : MAX_SCRIPT_SIZE < len <;> simp [h6] at h
  rcases h7 : fs.canonicalize path with _ | c <;> simp [h7] at h
  by_cases h8 : MAX_PATH_DEPTH < rustComponentsCount c <;> simp [h8] at h
  by_cases h9 : containsDotDot c = true <;> simp [h9] at h
  refine ⟨by simpa using h3, c, rfl, by omega, by simpa using h9,
    fun hm => absurd (containsDotDot_of_mem c hm) (by simpa using h9)⟩

/-- Witness for C5 (amended) on the accepted symlink path. -/
theorem validate_script_path_sound_witness :
    allowedExtensions.contains (dottedExtension pC5link) = true ∧
    ∃ c, fsC5.canonicalize pC5link = some c ∧
      rustComponentsCount c ≤ MAX_PATH_DEPTH ∧
      containsDotDot c = false ∧
      ".." ∉ c.comps :=
  validate_script_path_sound fsC5 pC5link rfl

/-! ## C6 -/

/-- C6, as stated, is false at `cpu_limit = 2.9`: the code computes
`(2.9 * 1024.0) as i64 = 2969` (truncation toward zero), while
`round(2.9 * 1024) = 2970` (src/container.rs:112). -/
theorem cpu_shares_not_rounded_counterexample :
    (create_container_spec cfgC6 "/tmp/s.json").resource_limits.cpuShares = 2969 ∧
    round (((29 : ℚ) / 10) * 1024) = 2970 := by
  constructor
  · show rustAsI64 ((29 / 10 : ℚ) * 1024) = 2969
    norm_num [rustAsI64]
  · norm_num [round_eq]

/-- C6 (amended): for `cpu_limit` in the validated range 0.1–4.0, the
spec's cpu-shares value is the *truncation* `⌊cpu_limit * 1024⌋` (the
Rust `as i64` cast), the memory limit is the requested byte value, and
the pid cap is 100. -/
theorem resource_limits_truncate (ex : Executor) (lang : Language) (keep : Bool)
    (name tempPath seccompPath : String)
    (hlo : (1 : ℚ) / 10 ≤ ex.cpuLimit) (hhi : ex.cpuLimit ≤ 4) :
    (create_container_spec (ex.buildContainerConfig lang keep name tempPath) seccompPath).resource_limits
      = { memory := ex.memoryLimit, cpuShares := ⌊ex.cpuLimit * 1024⌋, pids := 100 } := by
  have h0 : (0 : ℚ) ≤ ex.cpuLimit * 1024 := by nlinarith
  have hub : ex.cpuLimit * 1024 ≤ 4096 := by nlinarith
  have hfl1 : ⌊ex.cpuLimit * 1024⌋ ≤ 4096 := by
    calc ⌊ex.cpuLimit * 1024⌋ ≤ ⌊(4096 : ℚ)⌋ := Int.floor_le_floor hub
      _ = 4096 := by norm_num
  have hfl2 : (0 : Int) ≤ ⌊ex.cpuLimit * 1024⌋ := Int.floor_nonneg.mpr h0
  have hfl : rustAsI64 (ex.cpuLimit * 1024) = ⌊ex.cpuLimit * 1024⌋ := by
    unfold rustAsI64
    simp only [if_pos h0]
    omega
  simp [create_container_spec, Executor.buildContainerConfig, ContainerConfig.default, hfl]

/-- Witness for C6 (amended) at `cpu_limit = 1`. -/
theorem resource_limits_truncate_witness :
    (create_container_spec (exFix.buildContainerConfig .Bash false "n" "/tmp/w") "/tmp/s.json").resource_limits
      = { memory := exFix.memoryLimit, cpuShares := ⌊exFix.cpuLimit * 1024⌋, pids := 100 } :=
  resource_limits_truncate exFix .Bash false "n" "/tmp/w" "/tmp/s.json"
    (by norm_num [exFix]) (by norm_num [exFix])

/-! ## C7 -/

/-- C7: over the records the two constructors can build, the status is
`"success"` iff the exit code is 0 and the error field is absent; the
error constructor always yields exit code 1 and status `"error"`; a
record built from a non-zero container exit has status `"failed"`
(src/types.rs `ExecutionResult::success` and `::error`). -/
theorem status_success_iff (r : ExecutionResult) (h : Built r) :
    (r.status = rstr "success" ↔ r.exit_code = 0 ∧ r.error = none) ∧
    (∀ msg d, r = ExecutionResult.errorRecord msg d →
      r.exit_code = 1 ∧ r.status = rstr "error") ∧
    (∀ ec so se d tr, r = ExecutionResult.success ec so se d tr → ec ≠ 0 →
      r.status = rstr "failed") := by
  cases h with
  | success ec so se d tr =>
    refine ⟨?_, ?_, ?_⟩
    · by_cases h0 : ec = 0
      · subst h0
        simp [ExecutionResult.success]
      · constructor
        · intro hs
          exfalso
          have hss : rstr "failed" = rstr "success" := by
            simpa [ExecutionResult.success, h0] using hs
          exact absurd hss (by decide)
        · rintro ⟨h1, -⟩
          exact absurd h1 h0
    · intro msg d1 heq
      exfalso
      have he := congrArg ExecutionResult.error heq
      simp [ExecutionResult.success, ExecutionResult.errorRecord] at he
    · intro ec1 so1 se1 d1 tr1 heq hne
      have hec : ec = ec1 := by
        have hc := congrArg ExecutionResult.exit_code heq
        simpa [ExecutionResult.success] using hc
      have h0 : ¬ ec = 0 := by rw [hec]; exact hne
      simp [ExecutionResult.success, h0]
  | errorRecord msg d =>
    refine ⟨?_, ?_, ?_⟩
    · constructor
      · intro hs
        exact absurd (show rstr "error" = rstr "success" from hs) (by decide)
      · rintro ⟨-, h2⟩
        exact absurd (show (some msg : Option RStr) = none from h2) (by simp)
    · intro msg1 d1 heq
      exact ⟨rfl, rfl⟩
    · intro ec1 so1 se1 d1 tr1 heq hne
      exfalso
      have he := congrArg ExecutionResult.error heq
      simp [ExecutionResult.success, ExecutionResult.errorRecord] at he

/-- Witness for C7 on a concrete error record. -/
theorem status_success_iff_witness :
    ((ExecutionResult.errorRecord (rstr "x") 7).status = rstr "success" ↔
      (ExecutionResult.errorRecord (rstr "x") 7).exit_code = 0 ∧
      (ExecutionResult.errorRecord (rstr "x") 7).error = none) ∧
    (∀ msg d, ExecutionResult.errorRecord (rstr "x") 7 = ExecutionResult.errorRecord msg d →
      (ExecutionResult.errorRecord (rstr "x") 7).exit_code = 1 ∧
      (ExecutionResult.errorRecord (rstr "x") 7).status = rstr "error") ∧
    (∀ ec so se d tr, ExecutionResult.errorRecord (rstr "x") 7 = ExecutionResult.success ec so se d tr →
      ec ≠ 0 → (ExecutionResult.errorRecord (rstr "x") 7).status = rstr "failed") :=
  status_success_iff (ExecutionResult.errorRecord (rstr "x") 7)
    (Built.errorRecord (rstr "x") 7)

/-! ## C8 -/

/-- C8: `remove_container` returns `Ok(())` for every engine state and
ID — engine failures, including removing an already-removed or unknown
container, are only logged — so a second remove of the same ID also
returns without error (src/container.rs:202–211). -/
theorem remove_container_best_effort (st : EngineState) (id : String) :
    (remove_container st id).2 = .ok () ∧
    (remove_container (remove_container st id).1 id).2 = .ok () :=
  ⟨rfl, rfl⟩

/-! ## C9 -/

/-- C9, as stated, is false: with cap 1 and stdout `"é"` (2 bytes) the
byte index 1 falls inside the multi-byte character, and the slice
`&stdout[..1]` panics — modelled as `none`
(src/executor.rs `apply_output_limits`). -/
theorem output_cap_multibyte_counterexample :
    utf8Len ['é'] = 2 ∧
    apply_output_limits_utf8 1 ['é'] [] = none :=
  ⟨rfl, rfl⟩

/-- C9 (amended): the output cap returns a value — no panic — whenever
each over-cap stream has a character boundary at byte index `limit`; in
particular it is total on ASCII streams.  When the cap falls strictly
inside a multi-byte character of an over-cap stream the slice panics. -/
theorem apply_output_limits_utf8_total_on_boundaries (limit : Nat) (stdout stderr : List Char)
    (h1 : utf8Len stdout > limit → (sliceTo stdout limit).isSome = true)
    (h2 : utf8Len stderr > limit → (sliceTo stderr limit).isSome = true) :
    (apply_output_limits_utf8 limit stdout stderr).isSome = true := by
  unfold apply_output_limits_utf8
  by_cases hso : utf8Len stdout > limit
  · rcases Option.isSome_iff_exists.mp (h1 hso) with ⟨v, hv⟩
    by_cases hse : utf8Len stderr > limit
    · rcases Option.isSome_iff_exists.mp (h2 hse) with ⟨w, hw⟩
      simp [hso, hse, hv, hw]
    · simp [hso, hse, hv]
  · by_cases hse : utf8Len stderr > limit
    · rcases Option.isSome_iff_exists.mp (h2 hse) with ⟨w, hw⟩
      simp [hso, hse, hw]
    · simp [hso, hse]

/-- Witness for C9 (amended) on an over-cap ASCII stream. -/
theorem apply_output_limits_utf8_total_witness :
    (apply_output_limits_utf8 1 ['a', 'b'] []).isSome = true :=
  apply_output_limits_utf8_total_on_boundaries 1 ['a', 'b'] [] (by decide) (by decide)

/-! ## C10 -/

/-- C10: every record `run_script` produces with status `"error"` — the
records built on the start/wait-timeout/logs error paths — has empty
stdout, empty stderr, `truncated = false` and exit code 1: output the
container produced before the failure never reaches the record
(src/types.rs `ExecutionResult::error`, src/executor.rs:132–149). -/
theorem error_records_discard_output (ex : Executor) (env : ExecEnv) (lang : Language)
    (path : RPath) (keep : Bool) (r : ExecutionResult)
    (h : ex.run_script env lang path keep = Except.ok r)
    (hs : r.status = rstr "error") :
    r.stdout = [] ∧ r.stderr = [] ∧ r.truncated = false ∧ r.exit_code = 1 := by
  rcases run_script_ok_shape ex env lang path keep r h with ⟨i, so, se, tr, rfl⟩ | ⟨e, rfl⟩
  · exfalso
    by_cases h0 : rustAsU32 i = 0 <;>
      simp [ExecutionResult.success, h0, rstr] at hs
  · exact ⟨rfl, rfl, rfl, rfl⟩

/-- Witness for C10: a run that times out in `wait` after the container
wrote output; the record discards that output. -/
theorem error_records_discard_output_witness :
    exFix.run_script envC10 .Python pC10 false
      = .ok (ExecutionResult.errorRecord (SingleloadError.message .Timeout) 42) ∧
    ((ExecutionResult.errorRecord (SingleloadError.message .Timeout) 42).stdout = [] ∧
     (ExecutionResult.errorRecord (SingleloadError.message .Timeout) 42).stderr = [] ∧
     (ExecutionResult.errorRecord (SingleloadError.message .Timeout) 42).truncated = false ∧
     (ExecutionResult.errorRecord (SingleloadError.message .Timeout) 42).exit_code = 1) :=
  ⟨rfl, error_records_discard_output exFix envC10 .Python pC10 false
    (ExecutionResult.errorRecord (SingleloadError.message .Timeout) 42) rfl rfl⟩

end Singleload
